import Mathlib

/-!
Verification of the pendulumedu quiz-scraper pipeline (`src/` of the
repository) against its natural-language specification.

The development shallowly embeds the Python modules that the claims touch:

* `src/parser.py`   — `QuizParser` (HTML tree → structured questions),
* `src/state_manager.py` — `StateManager` (processed-URL set, local file,
  optional remote gist),
* `src/translator.py` — `Translator._translate_text` retry logic,
* `src/scraper.py`  — the already-submitted fast path of
  `QuizScraper._submit_quiz_playwright`,
* `src/runner.py`   — `process_quiz` / the `main` per-item loop.

HTML documents are modelled as an ordinary rose tree (`HNode`); external
I/O (HTTP, the browser, the translation API, Telegram) is modelled by
explicit outcome parameters.  Machine integers do not occur on the paths
modelled here; Python string operations are embedded over `List Char`
restricted to the ASCII whitespace class used by `str.strip` / regex `\s`.
-/

set_option maxHeartbeats 1000000

namespace NewsScraper

/-- ASCII whitespace, the characters matched by Python's `str.strip()`
and by the regex class `\s` on the ASCII range. -/
def pyWS (c : Char) : Bool :=
  c == ' ' || c == '\t' || c == '\n' || c == '\r' || c == '\x0b' || c == '\x0c'

/-- Python `str.strip()` on a character list. -/
def stripChars (cs : List Char) : List Char :=
  ((cs.dropWhile pyWS).reverse.dropWhile pyWS).reverse

/-- Python `str.strip()` on a `String`. -/
def pyStrip (s : String) : String := String.mk (stripChars s.data)

/-- Whether a character is one of the option labels `A`–`D`
(the regex class `[A-D]` of `_clean_option_text`). -/
def isOptionLabelChar (c : Char) : Bool :=
  c == 'A' || c == 'B' || c == 'C' || c == 'D'

/-- Embedding of the first substitution of
`QuizParser._clean_option_text`: `re.sub(r'^[A-D][\.\)]\s*', '', text)`.
The pattern is anchored, so at most one (leftmost, greedy) match is
removed. -/
def dropLabelDot : List Char → List Char
  | c1 :: c2 :: rest =>
    if isOptionLabelChar c1 && (c2 == '.' || c2 == ')') then rest.dropWhile pyWS
    else c1 :: c2 :: rest
  | cs => cs

/-- Embedding of the second substitution of
`QuizParser._clean_option_text`: `re.sub(r'^[A-D]\s+', '', cleaned)`
(a label character followed by at least one whitespace character; the
greedy `\s+` consumes the whole leading whitespace run). -/
def dropLabelSpace : List Char → List Char
  | c1 :: c2 :: rest =>
    if isOptionLabelChar c1 && pyWS c2 then rest.dropWhile pyWS
    else c1 :: c2 :: rest
  | cs => cs

/-- Embedding of `QuizParser._clean_option_text`: both anchored
substitutions followed by `str.strip()`. -/
def clean_option_text (s : String) : String :=
  String.mk (stripChars (dropLabelSpace (dropLabelDot s.data)))

/-- A character list does not begin with an option-label character
followed by whitespace (so the second substitution of
`_clean_option_text` leaves it unchanged). -/
def noLeadingLabel : List Char → Bool
  | c1 :: c2 :: _ => !(isOptionLabelChar c1 && pyWS c2)
  | _ => true

/-- An HTML document or element, as seen through the BeautifulSoup calls
used by `parser.py`: an element has a tag, a list of CSS classes and
children; leaves are text fragments. -/
inductive HNode where
  | elem (tag : String) (classes : List String) (children : List HNode)
  | text (s : String)

mutual

/-- Matching elements of the subtree rooted at a node, the node itself
included, in document (pre-)order. -/
def findAllIncl (p : HNode → Bool) : HNode → List HNode
  | .text _ => []
  | .elem tag classes children =>
    (if p (.elem tag classes children) then [HNode.elem tag classes children] else [])
      ++ findAllInclList p children

/-- `findAllIncl` mapped over a child list, concatenated in order. -/
def findAllInclList (p : HNode → Bool) : List HNode → List HNode
  | [] => []
  | n :: ns => findAllIncl p n ++ findAllInclList p ns

end

/-- BeautifulSoup `find_all` as used in `parser.py`: matching descendant
elements in document order (the root itself is excluded). -/
def findAll (p : HNode → Bool) : HNode → List HNode
  | .text _ => []
  | .elem _ _ children => findAllInclList p children

/-- BeautifulSoup `find`: the first matching descendant, if any. -/
def findFirst (p : HNode → Bool) (n : HNode) : Option HNode :=
  (findAll p n).head?

/-- Matcher for `find`/`find_all` calls of the shape
`find('div', class_='cls')`. -/
def divWithClass (cls : String) : HNode → Bool
  | .elem tag classes _ => tag == "div" && classes.contains cls
  | .text _ => false

/-- Matcher for `find`/`find_all` calls that select by tag only
(`find_all('li')`, `find_all('p')`). -/
def tagIs (t : String) : HNode → Bool
  | .elem tag _ _ => tag == t
  | .text _ => false

mutual

/-- The descendant text fragments of a node, in document order. -/
def textFragments : HNode → List String
  | .text s => [s]
  | .elem _ _ children => textFragmentsList children

/-- `textFragments` over a child list, concatenated in order. -/
def textFragmentsList : List HNode → List String
  | [] => []
  | n :: ns => textFragments n ++ textFragmentsList ns

end

/-- BeautifulSoup `get_text(strip=True)`: each text fragment stripped,
fragments that strip to empty dropped, the rest joined without a
separator. -/
def getTextStrip (n : HNode) : String :=
  String.join (((textFragments n).map pyStrip).filter (fun s => s != ""))

/-- BeautifulSoup `get_text(separator=' ', strip=True)`: like
`getTextStrip` but joined with a single space. -/
def getTextSepSpace (n : HNode) : String :=
  String.intercalate " " (((textFragments n).map pyStrip).filter (fun s => s != ""))

/-- Helper for `re.sub(r'\s+', ' ', text)`: the flag records whether the
previous character belonged to a whitespace run (whose single
replacement space has already been emitted). -/
def collapseAux : Bool → List Char → List Char
  | _, [] => []
  | prevWS, c :: rest =>
    if pyWS c then
      if prevWS then collapseAux true rest
      else ' ' :: collapseAux true rest
    else c :: collapseAux false rest

/-- The substitution `re.sub(r'\s+', ' ', text)`: every maximal run of
whitespace becomes one space. -/
def collapseWSChars (cs : List Char) : List Char :=
  collapseAux false cs

/-- String version of `collapseWSChars`. -/
def collapseWS (s : String) : String := String.mk (collapseWSChars s.data)

/-- A character of the Devanagari block `U+0900`–`U+097F`, as counted by
`QuizParser._is_english_text`. -/
def isDevanagari (c : Char) : Bool :=
  0x900 ≤ c.toNat && c.toNat ≤ 0x97F

/-- A character with `char.isascii() and char.isalpha()` in Python:
an ASCII letter. -/
def isAsciiAlphaChar (c : Char) : Bool :=
  c.toNat < 128 && ((65 ≤ c.toNat && c.toNat ≤ 90) || (97 ≤ c.toNat && c.toNat ≤ 122))

/-- `devanagari_count` of `_is_english_text`. -/
def devanagariCount (s : String) : Nat :=
  s.data.countP (fun c => isDevanagari c)

/-- `english_count` of `_is_english_text`. -/
def englishCount (s : String) : Nat :=
  s.data.countP (fun c => isAsciiAlphaChar c)

/-- Embedding of `QuizParser._is_english_text`.  The floating ratio test
`devanagari_count / total_alpha < 0.3` is expressed integrally as
`10 * devanagari_count < 3 * total_alpha`, which agrees with the Python
float comparison for every realistic character count. -/
def is_english_text (s : String) : Bool :=
  if s == "" then true
  else if devanagariCount s + englishCount s == 0 then true
  else decide (10 * devanagariCount s < 3 * (devanagariCount s + englishCount s))

/-- The `QuizQuestion` dataclass of `parser.py`.  The `options` dict is
insertion-ordered in Python, so it is embedded as an association list. -/
structure QuizQuestion where
  question_number : Nat
  question_text : String
  options : List (Char × String)
  correct_answer : String
  explanation : String
deriving DecidableEq, Repr

/-- The `QuizData` dataclass of `parser.py`. -/
structure QuizData where
  source_url : String
  questions : List QuizQuestion
  extracted_date : String
deriving DecidableEq, Repr

/-- The `option_labels` list of `QuizParser._extract_options`. -/
def option_labels : List Char := ['A', 'B', 'C', 'D']

/-- The `for li in option_list_items` loop of
`QuizParser._extract_options`, carrying `option_count`.  The loop breaks
once four options have been collected; a list item without a
`containerr-text-opt` div, or whose cleaned text is empty, is skipped
without consuming a label. -/
def extractOptionsLoop : List HNode → Nat → List (Char × String)
  | [], _ => []
  | li :: rest, count =>
    if 4 ≤ count then []
    else
      match findFirst (divWithClass "containerr-text-opt") li with
      | none => extractOptionsLoop rest count
      | some optionDiv =>
        let t := clean_option_text (getTextStrip optionDiv)
        if t == "" then extractOptionsLoop rest count
        else (option_labels.getD count 'A', t) :: extractOptionsLoop rest (count + 1)

/-- Embedding of `QuizParser._extract_options`: scoped to the first
`q-option` div (empty result if absent), over its `li` descendants. -/
def extract_options (sec : HNode) : List (Char × String) :=
  match findFirst (divWithClass "q-option") sec with
  | none => []
  | some qOptionDiv => extractOptionsLoop (findAll (tagIs "li") qOptionDiv) 0

/-- A character of the regex class `[\s:]` used in the answer pattern. -/
def wsOrColon (c : Char) : Bool := pyWS c || c == ':'

/-- Case-insensitive literal prefix test (an ASCII literal under
`re.IGNORECASE`). -/
def startsWithCI : List Char → List Char → Bool
  | [], _ => true
  | _ :: _, [] => false
  | p :: ps, c :: cs => (p.toLower == c.toLower) && startsWithCI ps cs

/-- The capture class `([A-D])` under `re.IGNORECASE`. -/
def isAnswerLetter (c : Char) : Bool :=
  isOptionLabelChar c || c == 'a' || c == 'b' || c == 'c' || c == 'd'

/-- The head of a character list when it lies in the capture class. -/
def headAnswerLetter : List Char → Option Char
  | c :: _ => if isAnswerLetter c then some c else none
  | [] => none

/-- The tail of the answer regex after a matched keyword:
`[\s:]*(?:Option[\s:]*)?([A-D])` with `re.IGNORECASE`.  Both starred
classes are disjoint from `Option`'s first letter and from `[A-D]`, so
greedy matching needs no backtracking; when the optional `Option` group
matches but no letter follows, the fallback without the group also fails
(its next character would be `o`/`O`). -/
def answerTail (cs : List Char) : Option Char :=
  let cs1 := cs.dropWhile wsOrColon
  if startsWithCI "option".data cs1 then
    headAnswerLetter ((cs1.drop 6).dropWhile wsOrColon)
  else
    headAnswerLetter cs1

/-- One alternation branch of the answer pattern at a fixed position:
the keyword literal (case-insensitive) followed by `answerTail`. -/
def tryKeyword (kw : List Char) (cs : List Char) : Option Char :=
  if startsWithCI kw cs then answerTail (cs.drop kw.length) else none

/-- Embedding of
`re.search(r'(?:Answer|Correct Answer|Ans)[\s:]*(?:Option[\s:]*)?([A-D])', text, re.IGNORECASE)`:
positions are scanned left to right, and at each position the
alternation is tried in written order. -/
def searchAnswerPattern : List Char → Option Char
  | [] => none
  | c :: rest =>
    match tryKeyword "answer".data (c :: rest) with
    | some l => some l
    | none =>
      match tryKeyword "correct answer".data (c :: rest) with
      | some l => some l
      | none =>
        match tryKeyword "ans".data (c :: rest) with
        | some l => some l
        | none => searchAnswerPattern rest

/-- The last-resort scan of `_extract_correct_answer`:
`for char in reversed(answr_text)` returning the first uppercase `A`–`D`
found. -/
def lastAnswerChar (cs : List Char) : Option Char :=
  cs.reverse.find? (fun c => isOptionLabelChar c)

/-- Embedding of `QuizParser._extract_correct_answer`: the regex search
over the stripped `solution-sec` text, then the bare single-letter
check, then the reversed scan of the `answr` div. -/
def extract_correct_answer (sec : HNode) : String :=
  match findFirst (divWithClass "solution-sec") sec with
  | none => ""
  | some solutionDiv =>
    let solutionText := getTextStrip solutionDiv
    match searchAnswerPattern solutionText.data with
    | some c => String.mk [c.toUpper]
    | none =>
      if solutionText == "A" || solutionText == "B" || solutionText == "C"
          || solutionText == "D" then
        solutionText
      else
        match findFirst (divWithClass "answr") solutionDiv with
        | none => ""
        | some answrDiv =>
          match lastAnswerChar (getTextStrip answrDiv).data with
          | some c => String.mk [c]
          | none => ""

/-- Embedding of `QuizParser._extract_explanation`: bullet-prefixed list
items, then paragraphs (middle dot replaced by a bullet, exact repeats
skipped), falling back to the whole `ans-text` text when no structured
parts exist; whitespace runs are collapsed throughout. -/
def extract_explanation (sec : HNode) : String :=
  match findFirst (divWithClass "solution-sec") sec with
  | none => ""
  | some solutionDiv =>
    match findFirst (divWithClass "ans-text") solutionDiv with
    | none => ""
    | some explanationDiv =>
      let liParts :=
        ((findAll (tagIs "li") explanationDiv).map
            (fun li => collapseWS (getTextStrip li))).filterMap
          (fun t => if t == "" then none else some ("• " ++ t))
      let parts :=
        (findAll (tagIs "p") explanationDiv).foldl
          (fun acc p =>
            let t := (collapseWS (getTextStrip p)).replace "·" "•"
            if t != "" && !(acc.contains t) then acc ++ [t] else acc)
          liParts
      if parts.isEmpty then collapseWS (getTextSepSpace explanationDiv)
      else collapseWS (String.intercalate " " parts)

/-- Embedding of `QuizParser._parse_question_section`.  The Python error
messages interpolate the question number; the number never influences
which branch is taken, so the messages are embedded without it. -/
def parse_question_section (sec : HNode) (question_number : Nat) :
    Except String QuizQuestion :=
  match findFirst (divWithClass "q-name") sec with
  | none => .error "Question text not found"
  | some questionDiv =>
    let question_text := getTextStrip questionDiv
    let options := extract_options sec
    if options.isEmpty then .error "No options found"
    else
      let correct_answer := extract_correct_answer sec
      if correct_answer == "" then .error "Correct answer not found"
      else
        .ok { question_number := question_number
              question_text := question_text
              options := options
              correct_answer := correct_answer
              explanation := extract_explanation sec }

/-- The section lookup of `QuizParser.parse_quiz`: all
`q-section-inner-sol` divs, falling back to `q-section-inner` when none
are found. -/
def sectionsOf (html : HNode) : List HNode :=
  let s1 := findAll (divWithClass "q-section-inner-sol") html
  if s1.isEmpty then findAll (divWithClass "q-section-inner") html else s1

/-- The `for idx, section in enumerate(question_sections, start=1)` loop
of `parse_quiz`: a section whose parse raises is skipped; a parsed
question is kept only if its text passes `_is_english_text`, and kept
questions are renumbered `english_questions_found + 1`. -/
def keptLoop : List HNode → Nat → Nat → List QuizQuestion
  | [], _, _ => []
  | sec :: rest, idx, found =>
    match parse_question_section sec idx with
    | .error _ => keptLoop rest (idx + 1) found
    | .ok q =>
      if is_english_text q.question_text then
        { q with question_number := found + 1 } :: keptLoop rest (idx + 1) (found + 1)
      else keptLoop rest (idx + 1) found

/-- Embedding of `QuizParser.parse_quiz`.  The `now` parameter stands
for `datetime.now().isoformat()`. -/
def parse_quiz (html : HNode) (url : String) (now : String) : Except String QuizData :=
  let secs := sectionsOf html
  if secs.isEmpty then .error "No question sections found in HTML"
  else
    let qs := keptLoop secs 1 0
    if qs.isEmpty then .error "No English questions could be parsed from HTML"
    else .ok { source_url := url, questions := qs, extracted_date := now }

/-- The contents of the local tracking file
(`data/scraped_urls.json`). -/
inductive FileContent where
  | missing
  | corrupt
  | stored (urls : List String)
deriving DecidableEq, Repr

/-- The state touched by `StateManager`: the in-memory URL set, the
local tracking file, the remote gist (`some` = reachable with the given
content, `none` = unreachable or not configured) and the `use_online`
flag (already false when `GIST_TOKEN`/`GIST_ID` are absent). -/
structure SMState where
  processed_urls : List String
  local_file : FileContent
  remote : Option (List String)
  use_online : Bool
deriving DecidableEq, Repr

/-- Python `sorted(list(set_of_urls))`, the payload written by
`_save_to_local_file` and `_save_to_gist`. -/
def sortedUrlList (urls : List String) : List String :=
  List.insertionSort (fun a b => a ≤ b) urls.dedup

/-- Embedding of `StateManager.is_processed`:
`url in self._processed_urls`. -/
def is_processed (st : SMState) (url : String) : Bool :=
  decide (url ∈ st.processed_urls)

/-- Embedding of `StateManager._save_to_local_file`. -/
def save_to_local_file (st : SMState) : SMState :=
  { st with local_file := .stored (sortedUrlList st.processed_urls) }

/-- Embedding of `StateManager._save_to_gist`: best-effort, a no-op when
online storage is disabled or the gist is unreachable. -/
def save_to_gist (st : SMState) : SMState :=
  if st.use_online then
    match st.remote with
    | some _ => { st with remote := some (sortedUrlList st.processed_urls) }
    | none => st
  else st

/-- Embedding of `StateManager._save_to_file`: local write always,
remote write best-effort. -/
def save_to_file (st : SMState) : SMState :=
  save_to_gist (save_to_local_file st)

/-- Embedding of `StateManager.mark_processed`: add to the in-memory
set, then persist. -/
def mark_processed (st : SMState) (url : String) : SMState :=
  save_to_file
    { st with processed_urls :=
        if url ∈ st.processed_urls then st.processed_urls
        else st.processed_urls ++ [url] }

/-- Reading the local tracking file in
`StateManager.load_processed_urls`: a missing file is created with an
empty list, a corrupt file starts an empty state. -/
def loadLocalFile : FileContent → List String
  | .missing => []
  | .corrupt => []
  | .stored urls => urls

/-- Embedding of `StateManager.load_processed_urls` as run by a fresh
manager over the given storage: online storage is tried first when
enabled, falling back to the local file. -/
def load_processed_urls (use_online : Bool) (remote : Option (List String))
    (file : FileContent) : List String :=
  if use_online then
    match remote with
    | some urls => urls
    | none => loadLocalFile file
  else loadLocalFile file

/-- One outcome of `self.translator.translate(text)` inside
`Translator._translate_text`: a truthy result, a falsy result
(`None`/empty), or a raised exception. -/
inductive CallOutcome where
  | success (s : String)
  | empty
  | failure (msg : String)
deriving DecidableEq, Repr

/-- Observable step of `_translate_text`: an API call (by attempt
index) or a backoff sleep (in seconds). -/
inductive TAction where
  | call (attempt : Nat)
  | sleep (seconds : Nat)
deriving DecidableEq, Repr

/-- The `preserve_items` set of `Translator.__init__`. -/
def preserve_items : List String :=
  ["CurrentAdda", "https://t.me/currentadda", "@currentadda"]

/-- The `for attempt in range(max_retries)` loop of
`Translator._translate_text`, with the API modelled by `oracle` (the
outcome of each attempt).  An exception before the last attempt sleeps
`2 ** attempt` seconds and retries; on the last attempt it raises.  A
falsy result retries without sleeping; falling out of the loop returns
the original text. -/
def translateLoop (oracle : Nat → CallOutcome) (text : String) (max_retries : Nat)
    (attempt : Nat) : Except String String × List TAction :=
  if attempt < max_retries then
    match oracle attempt with
    | .success s => (.ok s, [.call attempt])
    | .empty =>
      let r := translateLoop oracle text max_retries (attempt + 1)
      (r.1, .call attempt :: r.2)
    | .failure msg =>
      if attempt < max_retries - 1 then
        let r := translateLoop oracle text max_retries (attempt + 1)
        (r.1, .call attempt :: .sleep (2 ^ attempt) :: r.2)
      else
        (.error ("Failed to translate text after retries: " ++ msg), [.call attempt])
  else (.ok text, [])
termination_by max_retries - attempt

/-- Embedding of `Translator._translate_text` with its default
`max_retries = 3`: empty/whitespace-only strings and preserve-list
entries are returned unchanged without calling the API. -/
def translate_text (oracle : Nat → CallOutcome) (text : String) :
    Except String String × List TAction :=
  if text == "" || pyStrip text == "" then (.ok text, [])
  else if preserve_items.contains text then (.ok text, [])
  else translateLoop oracle text 3 0

/-- The quiz page as observed by
`QuizScraper._submit_quiz_playwright` after login and navigation:
the first `.solution-sec .head` text (`none` = the locator timed out),
visibility of the `#submit-ans` control, the head text observed at each poll
attempt after the click, and the page HTML before/after submitting. -/
structure QuizPage where
  head_text : Option String
  submit_button_visible : Bool
  poll_head : Nat → Option String
  content_before_submit : String
  content_after_submit : String

/-- Exact character-list prefix test. -/
def startsWithChars : List Char → List Char → Bool
  | [], _ => true
  | _ :: _, [] => false
  | p :: ps, c :: cs => (p == c) && startsWithChars ps cs

/-- Python substring membership `pat in s` over character lists. -/
def containsSub (pat : List Char) : List Char → Bool
  | [] => startsWithChars pat []
  | c :: rest => startsWithChars pat (c :: rest) || containsSub pat rest

/-- The marker test `'Correct Answer:' in head_text or 'सही उत्तर:' in
head_text`. -/
def hasAnswerMarker (s : String) : Bool :=
  containsSub "Correct Answer:".data s.data || containsSub "सही उत्तर:".data s.data

/-- Observable step of the submission driver. -/
inductive DriverAction where
  | check_head
  | click_submit
  | poll (attempt : Nat)
deriving DecidableEq, Repr

/-- The bounded polling loop after the submit click (`max_attempts =
15`, one-second interval): stop as soon as the head text shows the
marker. -/
def pollForAnswers (pg : QuizPage) : Nat → Nat → List DriverAction
  | _, 0 => []
  | attempt, fuel + 1 =>
    DriverAction.poll attempt ::
      (match pg.poll_head attempt with
       | some ht =>
         if hasAnswerMarker ht then [] else pollForAnswers pg (attempt + 1) fuel
       | none => pollForAnswers pg (attempt + 1) fuel)

/-- The submit-and-poll path of `_submit_quiz_playwright`: locate the
submit control (a Scraper error if it never becomes visible), click it,
poll, and return the page HTML (returned even on poll timeout —
degrade gracefully). -/
def clickAndPoll (pg : QuizPage) : Except String (String × List DriverAction) :=
  if pg.submit_button_visible then
    .ok (pg.content_after_submit,
      DriverAction.check_head :: DriverAction.click_submit :: pollForAnswers pg 0 15)
  else .error "Submit button not found"

/-- Embedding of the decision logic of
`QuizScraper._submit_quiz_playwright` from the already-submitted check
onward (login and navigation are external I/O).  If the first answer
header already shows the marker, no submit/poll happens and the current
page HTML is returned; a missing header locator or a marker-less header
goes through the submit-and-poll path.  The final verification step
only logs, so the returned HTML is the page content either way. -/
def submit_quiz_playwright (pg : QuizPage) : Except String (String × List DriverAction) :=
  match pg.head_text with
  | some ht =>
    if hasAnswerMarker ht then .ok (pg.content_before_submit, [DriverAction.check_head])
    else clickAndPoll pg
  | none => clickAndPoll pg

/-- Error kinds caught at the bottom of `runner.process_quiz`. -/
inductive StageErr where
  | scraperError (msg : String)
  | valueError (msg : String)
  | otherError (msg : String)
deriving DecidableEq, Repr

/-- The outcome of each pipeline stage for one quiz URL, modelling the
external collaborators called by `runner.process_quiz` in order:
scraping, parsing, translation, the two PDF generations, the header
message, the two PDF sends (which can raise or return a boolean) and
the optional text-message step (whose errors are swallowed by an inner
`try`/`except`). -/
structure ItemEnv where
  scrape : Except StageErr String
  parse : Except StageErr Unit
  translate : Except StageErr Unit
  pdf_study : Except StageErr String
  pdf_practice : Except StageErr String
  send_header : Except StageErr Unit
  send_study : Except StageErr Bool
  send_practice : Except StageErr Bool
  send_text : Except StageErr Bool

/-- Whether an `Except` outcome is a success. -/
def exOk {ε α : Type} : Except ε α → Bool
  | .ok _ => true
  | .error _ => false

/-- Whether the required (study) PDF send reported success. -/
def sendStudyOk : Except StageErr Bool → Bool
  | .ok true => true
  | _ => false

/-- The condition under which `runner.process_quiz` reaches
`mark_processed`: every stage up to and including the practice-PDF send
ran without raising, and the study-PDF send returned `True`.  (A
`False` practice send and any text-sender outcome are logged only.) -/
def envFullSuccess (env : ItemEnv) : Bool :=
  exOk env.scrape && exOk env.parse && exOk env.translate && exOk env.pdf_study
    && exOk env.pdf_practice && exOk env.send_header && sendStudyOk env.send_study
    && exOk env.send_practice

/-- Whether the scrape stage raised a Scraper error. -/
def envScrapeFails (env : ItemEnv) : Bool :=
  match env.scrape with
  | .error (.scraperError _) => true
  | _ => false

/-- Embedding of `runner.process_quiz`: the stages run in order inside
one `try`; any raise falls to the `except` handlers, which return
`False` without marking; a `False` study send returns `False` before
marking; only the full success path calls `state_manager.mark_processed`
and returns `True`.  The text-message step's outcome is swallowed by its
inner `try`/`except`. -/
def process_quiz (env : ItemEnv) (st : SMState) (url : String) : Bool × SMState :=
  match env.scrape with
  | .error _ => (false, st)
  | .ok _ =>
    match env.parse with
    | .error _ => (false, st)
    | .ok _ =>
      match env.translate with
      | .error _ => (false, st)
      | .ok _ =>
        match env.pdf_study with
        | .error _ => (false, st)
        | .ok _ =>
          match env.pdf_practice with
          | .error _ => (false, st)
          | .ok _ =>
            match env.send_header with
            | .error _ => (false, st)
            | .ok _ =>
              match env.send_study with
              | .error _ => (false, st)
              | .ok false => (false, st)
              | .ok true =>
                match env.send_practice with
                | .error _ => (false, st)
                | .ok _ =>
                  let _ := env.send_text
                  (true, mark_processed st url)

/-- The per-item loop of `runner.main` (step 7): process each new URL in
order, counting successes and failures.  Returns
`(successful_count, failed_count, final state)`. -/
def runAll (envOf : String → ItemEnv) : List String → SMState → Nat × Nat × SMState
  | [], st => (0, 0, st)
  | url :: rest, st =>
    let r := process_quiz (envOf url) st url
    let rec2 := runAll envOf rest r.2
    (if r.1 then rec2.1 + 1 else rec2.1,
     if r.1 then rec2.2.1 else rec2.2.1 + 1,
     rec2.2.2)

/-- A text leaf. -/
def mkText (s : String) : HNode := HNode.text s

/-- A `div` with one CSS class. -/
def mkDiv (cls : String) (children : List HNode) : HNode :=
  HNode.elem "div" [cls] children

/-- An option list item as rendered on the quiz pages: an `li` holding a
`containerr-text-opt` div with the option text. -/
def optionLi (s : String) : HNode :=
  HNode.elem "li" [] [mkDiv "containerr-text-opt" [mkText s]]

/-- A well-formed English question section. -/
def sectionWellFormed : HNode :=
  mkDiv "q-section-inner-sol"
    [ mkDiv "q-name" [mkText "Which river flows through Delhi?"]
    , mkDiv "q-option"
        [ HNode.elem "ul" []
            [optionLi "Yamuna", optionLi "Ganga", optionLi "Godavari", optionLi "Kaveri"] ]
    , mkDiv "solution-sec"
        [ mkDiv "head" [mkText "Correct Answer: A"]
        , mkDiv "ans-text" [mkText "The Yamuna flows through Delhi."] ] ]

/-- The question parsed from `sectionWellFormed` (once renumbered 1). -/
def wellFormedQuestion : QuizQuestion :=
  { question_number := 1
    question_text := "Which river flows through Delhi?"
    options := [('A', "Yamuna"), ('B', "Ganga"), ('C', "Godavari"), ('D', "Kaveri")]
    correct_answer := "A"
    explanation := "The Yamuna flows through Delhi." }

/-- A malformed section: no `q-name` div, so
`_parse_question_section` raises. -/
def sectionMalformed : HNode :=
  mkDiv "q-section-inner-sol" [mkText "broken"]

/-- A document with one malformed and one well-formed section. -/
def htmlMalformedPlusGood : HNode :=
  HNode.elem "html" [] [sectionMalformed, sectionWellFormed]

/-- A well-formed section whose question text is entirely Devanagari:
it parses successfully but fails the English filter. -/
def hindiSection : HNode :=
  mkDiv "q-section-inner-sol"
    [ mkDiv "q-name" [mkText "दिल्ली से कौन सी नदी बहती है?"]
    , mkDiv "q-option" [HNode.elem "ul" [] [optionLi "यमुना", optionLi "गंगा"]]
    , mkDiv "solution-sec" [mkText "Answer: A"] ]

/-- The question parsed from `hindiSection` (before filtering). -/
def hindiQuestion : QuizQuestion :=
  { question_number := 1
    question_text := "दिल्ली से कौन सी नदी बहती है?"
    options := [('A', "यमुना"), ('B', "गंगा")]
    correct_answer := "A"
    explanation := "" }

/-- A document whose only section is `hindiSection`. -/
def htmlOneHindi : HNode :=
  HNode.elem "html" [] [hindiSection]

/-- A section with only two options whose solution text names option D:
the parser accepts it although `D` is not an offered label. -/
def sectionTwoOptionsAnswerD : HNode :=
  mkDiv "q-section-inner-sol"
    [ mkDiv "q-name" [mkText "Which river flows through Delhi?"]
    , mkDiv "q-option" [HNode.elem "ul" [] [optionLi "Yamuna", optionLi "Ganga"]]
    , mkDiv "solution-sec" [mkText "Answer: D"] ]

/-- The question parsed from `sectionTwoOptionsAnswerD`. -/
def questionAnswerD : QuizQuestion :=
  { question_number := 1
    question_text := "Which river flows through Delhi?"
    options := [('A', "Yamuna"), ('B', "Ganga")]
    correct_answer := "D"
    explanation := "" }

/-- The quiz data parsed from `htmlMalformedPlusGood` at source URL
`"u"` and extraction date `"d"`. -/
def parsedGoodQuizData : QuizData :=
  { source_url := "u", questions := [wellFormedQuestion], extracted_date := "d" }

/-- The option labels of a question, as single-character strings
comparable to `correct_answer`. -/
def optionLabelStrings (q : QuizQuestion) : List String :=
  q.options.map (fun p => String.mk [p.1])

/-- An environment in which every stage of `process_quiz` succeeds. -/
def envGood : ItemEnv :=
  { scrape := .ok "<html>"
    parse := .ok ()
    translate := .ok ()
    pdf_study := .ok "study.pdf"
    pdf_practice := .ok "practice.pdf"
    send_header := .ok ()
    send_study := .ok true
    send_practice := .ok true
    send_text := .ok true }

/-- An environment in which scraping raises a Scraper error. -/
def envScraperDown : ItemEnv :=
  { envGood with scrape := .error (.scraperError "timeout") }

/-- A fresh state: nothing processed, no tracking file yet, no gist. -/
def st0 : SMState :=
  { processed_urls := [], local_file := .missing, remote := none, use_online := false }

/-- Three-item run in which only the second item's scrape fails. -/
def envOf3 : String → ItemEnv :=
  fun u => if u == "u2" then envScraperDown else envGood

/-- A quiz page whose first answer header already shows the marker. -/
def pgAlreadySubmitted : QuizPage :=
  { head_text := some "Correct Answer: B"
    submit_button_visible := true
    poll_head := fun _ => none
    content_before_submit := "<html>answers visible</html>"
    content_after_submit := "<html>after submit</html>" }

theorem dropLabelSpace_of_noLeadingLabel (u : List Char)
    (h : noLeadingLabel u = true) : dropLabelSpace u = u := by
  match u with
  | [] => rfl
  | [c] => rfl
  | c1 :: c2 :: rest =>
    simp only [noLeadingLabel, Bool.not_eq_true', Bool.and_eq_false_iff] at h
    simp only [dropLabelSpace]
    rcases h with h | h <;> simp [h]

theorem clean_option_append_dot (t : String) :
    clean_option_text ("A. " ++ t)
      = String.mk (stripChars (dropLabelSpace (t.data.dropWhile pyWS))) := by
  have hdata : ("A. " ++ t).data = 'A' :: '.' :: ' ' :: t.data := by
    have := String.data_append "A. " t
    simp [this]
  simp only [clean_option_text, hdata]
  rfl

theorem clean_option_append_paren (t : String) :
    clean_option_text ("A) " ++ t)
      = String.mk (stripChars (dropLabelSpace (t.data.dropWhile pyWS))) := by
  have hdata : ("A) " ++ t).data = 'A' :: ')' :: ' ' :: t.data := by
    have := String.data_append "A) " t
    simp [this]
  simp only [clean_option_text, hdata]
  rfl

theorem clean_option_append_space (t : String) :
    clean_option_text ("A " ++ t)
      = String.mk (stripChars (t.data.dropWhile pyWS)) := by
  have hdata : ("A " ++ t).data = 'A' :: ' ' :: t.data := by
    have := String.data_append "A " t
    simp [this]
  simp only [clean_option_text, hdata]
  rfl

/-- C6 counterexample: for the option body text `"B cat"`, the `"A. "`
and `"A "` prefix styles clean to different outputs (`"cat"` versus
`"B cat"`), because after the dotted label is stripped the second
anchored substitution of `_clean_option_text` fires again on the body's
own leading `"B "`. -/
theorem C6_counterexample :
    clean_option_text ("A. " ++ "B cat") ≠ clean_option_text ("A " ++ "B cat") ∧
    clean_option_text ("A. " ++ "B cat") = "cat" ∧
    clean_option_text ("A " ++ "B cat") = "B cat" := by
  refine ⟨?_, ?_, ?_⟩ <;> decide

/-- C6 (amended): for every option body text `t` that does not itself
begin (after leading whitespace) with a label character `A`–`D` followed
by whitespace, cleaning the three prefixed forms `"A. " ++ t`,
`"A) " ++ t` and `"A " ++ t` with `_clean_option_text` yields identical
output.  (Unrestricted, the claim fails: see the counterexample, where
the dotted forms strip one more leading label than the bare form.) -/
theorem C6_clean_option_label_invariance (t : String)
    (h : noLeadingLabel (t.data.dropWhile pyWS) = true) :
    clean_option_text ("A. " ++ t) = clean_option_text ("A " ++ t) ∧
    clean_option_text ("A) " ++ t) = clean_option_text ("A " ++ t) := by
  rw [clean_option_append_dot, clean_option_append_paren, clean_option_append_space,
    dropLabelSpace_of_noLeadingLabel _ h]
  exact ⟨rfl, rfl⟩

theorem mem_sortedUrlList (u : String) (l : List String) :
    u ∈ sortedUrlList l ↔ u ∈ l := by
  unfold sortedUrlList
  rw [(List.perm_insertionSort _ l.dedup).mem_iff, List.mem_dedup]

theorem save_to_file_processed_urls (st : SMState) :
    (save_to_file st).processed_urls = st.processed_urls := by
  rcases st with ⟨pu, lf, rem, uo⟩
  simp only [save_to_file, save_to_gist, save_to_local_file]
  cases uo <;> rcases rem with _ | r <;> rfl

theorem save_to_file_local_file (st : SMState) :
    (save_to_file st).local_file = .stored (sortedUrlList st.processed_urls) := by
  rcases st with ⟨pu, lf, rem, uo⟩
  simp only [save_to_file, save_to_gist, save_to_local_file]
  cases uo <;> rcases rem with _ | r <;> rfl

theorem mark_processed_urls_eq (st : SMState) (v : String) :
    (mark_processed st v).processed_urls
      = (if v ∈ st.processed_urls then st.processed_urls
         else st.processed_urls ++ [v]) := by
  unfold mark_processed
  rw [save_to_file_processed_urls]

theorem mark_processed_local_file_eq (st : SMState) (v : String) :
    (mark_processed st v).local_file
      = .stored (sortedUrlList
          (if v ∈ st.processed_urls then st.processed_urls
           else st.processed_urls ++ [v])) := by
  unfold mark_processed
  rw [save_to_file_local_file]

theorem is_processed_mark (st : SMState) (u v : String) :
    is_processed (mark_processed st v) u = (is_processed st u || u == v) := by
  simp only [is_processed, mark_processed_urls_eq]
  by_cases hu : u = v
  · subst hu
    by_cases hv : u ∈ st.processed_urls <;> simp [hv]
  · by_cases hv : v ∈ st.processed_urls <;>
      simp [hv, List.mem_append, hu, beq_iff_eq]

/-- C3: for every URL `u`, immediately after `mark_processed u` the
call `is_processed u` returns true, and `u` is still in the set a fresh
manager loads from the local file alone — with the remote store
unreachable (second conjunct) or online storage disabled (third
conjunct). -/
theorem C3_mark_processed_durable (st : SMState) (u : String) :
    is_processed (mark_processed st u) u = true ∧
    (∀ b, u ∈ load_processed_urls b none (mark_processed st u).local_file) ∧
    (∀ r, u ∈ load_processed_urls false r (mark_processed st u).local_file) := by
  have h1 : is_processed (mark_processed st u) u = true := by
    simp only [is_processed, mark_processed_urls_eq]
    by_cases hv : u ∈ st.processed_urls <;> simp [hv]
  have h2 : u ∈ loadLocalFile (mark_processed st u).local_file := by
    rw [mark_processed_local_file_eq]
    simp only [loadLocalFile]
    rw [mem_sortedUrlList]
    by_cases hv : u ∈ st.processed_urls <;> simp [hv]
  refine ⟨h1, fun b => ?_, fun r => ?_⟩
  · cases b <;> simpa [load_processed_urls] using h2
  · simpa [load_processed_urls] using h2

theorem sendStudyOk_iff (x : Except StageErr Bool) :
    sendStudyOk x = true ↔ x = Except.ok true := by
  rcases x with e | b
  · simp [sendStudyOk]
  · cases b <;> simp [sendStudyOk]

theorem process_quiz_spec (env : ItemEnv) (st : SMState) (url : String) :
    process_quiz env st url =
      if envFullSuccess env then (true, mark_processed st url) else (false, st) := by
  obtain ⟨sc, pa, tr, ps, pp, sh, ss, sp, stx⟩ := env
  cases sc <;> cases pa <;> cases tr <;> cases ps <;> cases pp <;> cases sh <;>
    rcases ss with e7 | b7 <;> (try cases b7) <;> cases sp <;>
      simp [process_quiz, envFullSuccess, exOk, sendStudyOk]

theorem process_quiz_of_success (env : ItemEnv) (st : SMState) (url : String)
    (he : envFullSuccess env = true) :
    process_quiz env st url = (true, mark_processed st url) := by
  rw [process_quiz_spec, if_pos he]

theorem process_quiz_of_failure (env : ItemEnv) (st : SMState) (url : String)
    (he : envFullSuccess env = false) :
    process_quiz env st url = (false, st) := by
  rw [process_quiz_spec, if_neg (by simp [he])]

/-- C1: starting from a state in which `url` is not yet processed,
`process_quiz` adds `url` to the processed set exactly when it reports
success; success entails that every stage up to the required (study)
PDF send succeeded and that the study send returned `True`; and any
failure leaves the state untouched, so the URL stays eligible for the
next run. -/
theorem C1_marked_only_after_distribution (env : ItemEnv) (st : SMState) (url : String)
    (h : is_processed st url = false) :
    ((process_quiz env st url).1 = true
        ↔ is_processed (process_quiz env st url).2 url = true) ∧
    ((process_quiz env st url).1 = true →
        envFullSuccess env = true ∧ env.send_study = Except.ok true) ∧
    ((process_quiz env st url).1 = false → (process_quiz env st url).2 = st) := by
  have hs := process_quiz_spec env st url
  by_cases he : envFullSuccess env
  · rw [hs, if_pos he]
    refine ⟨?_, fun _ => ⟨he, ?_⟩, by simp⟩
    · simp [is_processed_mark]
    · have := he
      simp only [envFullSuccess, Bool.and_eq_true] at this
      exact (sendStudyOk_iff env.send_study).mp this.1.2
  · rw [hs, if_neg he]
    exact ⟨by simp [h], by simp, fun _ => rfl⟩

/-- Witness for C1 at a concrete fully-successful environment. -/
theorem C1_marked_only_after_distribution_witness :
    is_processed st0 "u1" = false ∧
    ((process_quiz envGood st0 "u1").1 = true
        ↔ is_processed (process_quiz envGood st0 "u1").2 "u1" = true) ∧
    ((process_quiz envGood st0 "u1").1 = true →
        envFullSuccess envGood = true ∧ envGood.send_study = Except.ok true) := by
  have h := C1_marked_only_after_distribution envGood st0 "u1" (by decide)
  exact ⟨by decide, h.1, h.2.1⟩

theorem runAll_not_mem (envOf : String → ItemEnv) (urls : List String) (st : SMState)
    (u : String) (h : u ∉ urls) :
    is_processed (runAll envOf urls st).2.2 u = is_processed st u := by
  induction urls generalizing st with
  | nil => rfl
  | cons v rest ih =>
    have hv : u ≠ v := fun he => h (he ▸ List.mem_cons_self v rest)
    have hr : u ∉ rest := fun hm => h (List.mem_cons_of_mem _ hm)
    simp only [runAll]
    rw [process_quiz_spec]
    by_cases he : envFullSuccess (envOf v) <;> simp only [he, if_pos, if_neg, ite_true, ite_false]
    · rw [ih _ hr, is_processed_mark]
      simp [hv]
    · exact ih _ hr

theorem runAll_mono (envOf : String → ItemEnv) (urls : List String) (st : SMState)
    (u : String) (h : is_processed st u = true) :
    is_processed (runAll envOf urls st).2.2 u = true := by
  induction urls generalizing st with
  | nil => exact h
  | cons v rest ih =>
    simp only [runAll]
    rw [process_quiz_spec]
    by_cases he : envFullSuccess (envOf v) <;> simp only [he, ite_true, ite_false]
    · exact ih _ (by rw [is_processed_mark, h]; rfl)
    · exact ih _ h

/-- C2: over a run on distinct not-yet-processed URLs in which each item
either fully succeeds or raises a Scraper error while scraping, a failed
item's URL is absent from the final processed set, every successful
item's URL is present, the failure counter equals the number of failed
items and the success counter the number of successful ones. -/
theorem C2_scraper_error_items_skipped (envOf : String → ItemEnv) (urls : List String)
    (st : SMState) (hnodup : urls.Nodup)
    (hnew : ∀ u ∈ urls, is_processed st u = false)
    (hkinds : ∀ u ∈ urls,
      envFullSuccess (envOf u) = true ∨ envScrapeFails (envOf u) = true) :
    (∀ u ∈ urls, (is_processed (runAll envOf urls st).2.2 u = true
        ↔ envFullSuccess (envOf u) = true)) ∧
    (runAll envOf urls st).2.1
        = (urls.filter (fun u => !envFullSuccess (envOf u))).length ∧
    (runAll envOf urls st).1
        = (urls.filter (fun u => envFullSuccess (envOf u))).length := by
  induction urls generalizing st with
  | nil => simp [runAll]
  | cons v rest ih =>
    have hvrest : v ∉ rest := (List.nodup_cons.mp hnodup).1
    have hrestnodup : rest.Nodup := (List.nodup_cons.mp hnodup).2
    have hkr : ∀ u ∈ rest,
        envFullSuccess (envOf u) = true ∨ envScrapeFails (envOf u) = true :=
      fun u hu => hkinds u (List.mem_cons_of_mem _ hu)
    simp only [runAll]
    by_cases he : envFullSuccess (envOf v) = true
    · rw [process_quiz_of_success _ _ _ he]
      -- v succeeds: it is marked, then the rest runs from the marked state
      have hnewr : ∀ u ∈ rest, is_processed (mark_processed st v) u = false := by
        intro u hu
        rw [is_processed_mark, hnew u (List.mem_cons_of_mem _ hu)]
        have : u ≠ v := fun hEq => hvrest (hEq ▸ hu)
        simp [this]
      obtain ⟨hmem, hf, hsucc⟩ := ih (mark_processed st v) hrestnodup hnewr hkr
      refine ⟨?_, ?_, ?_⟩
      · intro u hu
        rcases List.mem_cons.mp hu with rfl | hu2
        · constructor
          · intro _; exact he
          · intro _
            refine runAll_mono envOf rest _ _ ?_
            rw [is_processed_mark]
            simp
        · exact hmem u hu2
      · simpa [he] using hf
      · simpa [he] using hsucc
    · -- v fails: state unchanged, the rest runs from the same state
      have he2 : envFullSuccess (envOf v) = false := by simpa using he
      rw [process_quiz_of_failure _ _ _ he2]
      obtain ⟨hmem, hf, hsucc⟩ := ih st hrestnodup
        (fun u hu => hnew u (List.mem_cons_of_mem _ hu)) hkr
      refine ⟨?_, ?_, ?_⟩
      · intro u hu
        rcases List.mem_cons.mp hu with rfl | hu2
        · rw [runAll_not_mem envOf rest st _ hvrest,
            hnew _ (List.mem_cons_self _ _)]
          simp [he]
        · exact hmem u hu2
      · simpa [he] using hf
      · simpa [he] using hsucc

/-- Witness for C2: three URLs of which only the second one's scrape
raises — the final processed set holds the first and third URLs but not
the second, and the failure counter equals 1. -/
theorem C2_scraper_error_items_skipped_witness :
    is_processed (runAll envOf3 ["u1", "u2", "u3"] st0).2.2 "u1" = true ∧
    is_processed (runAll envOf3 ["u1", "u2", "u3"] st0).2.2 "u2" = false ∧
    is_processed (runAll envOf3 ["u1", "u2", "u3"] st0).2.2 "u3" = true ∧
    (runAll envOf3 ["u1", "u2", "u3"] st0).2.1 = 1 := by
  have h := C2_scraper_error_items_skipped envOf3 ["u1", "u2", "u3"] st0
    (by decide) (by decide) (by decide)
  refine ⟨?_, ?_, ?_, ?_⟩
  · exact (h.1 "u1" (by decide)).mpr (by decide)
  · cases hb : is_processed (runAll envOf3 ["u1", "u2", "u3"] st0).2.2 "u2"
    · rfl
    · exact absurd ((h.1 "u2" (by decide)).mp hb) (by decide)
  · exact (h.1 "u3" (by decide)).mpr (by decide)
  · rw [h.2.1]; decide

/-- C4: when the first answer-section header already contains the
`"Correct Answer:"` marker phrase, the submission driver skips the
submit click and the polling loop entirely (its action trace is the
header check alone) and immediately returns the page HTML as it stands,
so a previously-submitted quiz is never re-submitted. -/
theorem C4_already_submitted_not_resubmitted (pg : QuizPage) (ht : String)
    (hhead : pg.head_text = some ht)
    (hmark : containsSub "Correct Answer:".data ht.data = true) :
    submit_quiz_playwright pg
      = Except.ok (pg.content_before_submit, [DriverAction.check_head]) := by
  unfold submit_quiz_playwright
  rw [hhead]
  have hm : hasAnswerMarker ht = true := by simp [hasAnswerMarker, hmark]
  simp [hm]

/-- Witness for C4 at a page whose header reads `"Correct Answer: B"`. -/
theorem C4_already_submitted_not_resubmitted_witness :
    pgAlreadySubmitted.head_text = some "Correct Answer: B" ∧
    containsSub "Correct Answer:".data "Correct Answer: B".data = true ∧
    submit_quiz_playwright pgAlreadySubmitted
      = Except.ok (pgAlreadySubmitted.content_before_submit, [DriverAction.check_head]) :=
  ⟨rfl, by decide,
    C4_already_submitted_not_resubmitted pgAlreadySubmitted "Correct Answer: B" rfl
      (by decide)⟩

/-- C9: preserve-list entries and empty strings come back unchanged
without any API call; for a translatable string whose every attempt
raises, the driver makes exactly three calls with exponential backoff
sleeps of 1 and 2 seconds between them and then propagates the failure
as an error rather than returning a default. -/
theorem C9_translate_retry_policy :
    (∀ oracle text, preserve_items.contains text = true →
      translate_text oracle text = (Except.ok text, [])) ∧
    (∀ oracle, translate_text oracle "" = (Except.ok "", [])) ∧
    (∀ (oracle : Nat → CallOutcome) (msgs : Nat → String) (text : String),
      (text == "") = false → (pyStrip text == "") = false →
      preserve_items.contains text = false →
      (∀ i, i < 3 → oracle i = CallOutcome.failure (msgs i)) →
      (∃ e, (translate_text oracle text).1 = Except.error e) ∧
      (translate_text oracle text).2
        = [TAction.call 0, TAction.sleep 1, TAction.call 1, TAction.sleep 2,
           TAction.call 2]) := by
  refine ⟨?_, ?_, ?_⟩
  · intro oracle text h
    have hm : text ∈ preserve_items := by simpa using h
    simp only [preserve_items, List.mem_cons, List.not_mem_nil] at hm
    rcases hm with rfl | rfl | rfl | h0
    · rfl
    · rfl
    · rfl
    · cases h0
  · intro oracle
    rfl
  · intro oracle msgs text h1 h2 h3 h4
    have e0 := h4 0 (by omega)
    have e1 := h4 1 (by omega)
    have e2 := h4 2 (by omega)
    have l2 : translateLoop oracle text 3 2
        = (Except.error ("Failed to translate text after retries: " ++ msgs 2),
           [TAction.call 2]) := by
      rw [translateLoop]
      simp [e2]
    have l1 : translateLoop oracle text 3 1
        = (Except.error ("Failed to translate text after retries: " ++ msgs 2),
           [TAction.call 1, TAction.sleep 2, TAction.call 2]) := by
      rw [translateLoop]
      simp [e1, l2]
    have l0 : translateLoop oracle text 3 0
        = (Except.error ("Failed to translate text after retries: " ++ msgs 2),
           [TAction.call 0, TAction.sleep 1, TAction.call 1, TAction.sleep 2,
            TAction.call 2]) := by
      rw [translateLoop]
      simp [e0, l1]
    have hnot : ¬ (text ∈ preserve_items) := by
      intro hmem
      have hc : preserve_items.contains text = true := by simpa using hmem
      rw [h3] at hc
      cases hc
    have ht : translate_text oracle text = translateLoop oracle text 3 0 := by
      unfold translate_text
      simp [h1, h2, hnot]
    rw [ht, l0]
    exact ⟨⟨_, rfl⟩, rfl⟩

/-- Witness for C9 at a concrete text and an always-raising oracle. -/
theorem C9_translate_retry_policy_witness :
    (∃ e, (translate_text (fun _ => CallOutcome.failure "boom") "hello").1
        = Except.error e) ∧
    (translate_text (fun _ => CallOutcome.failure "boom") "hello").2
      = [TAction.call 0, TAction.sleep 1, TAction.call 1, TAction.sleep 2,
         TAction.call 2] :=
  C9_translate_retry_policy.2.2 (fun _ => CallOutcome.failure "boom") (fun _ => "boom")
    "hello" (by decide) (by decide) (by decide) (fun i _ => rfl)

theorem parse_question_section_reindex (sec : HNode) (m n : Nat) :
    parse_question_section sec n
      = (parse_question_section sec m).map
          (fun q => { q with question_number := n }) := by
  unfold parse_question_section
  cases findFirst (divWithClass "q-name") sec with
  | none => rfl
  | some qdiv =>
    by_cases h1 : (extract_options sec).isEmpty <;>
      by_cases h2 : (extract_correct_answer sec == "") = true <;>
        simp [h1, h2, Except.map]

theorem headAnswerLetter_letter {cs : List Char} {c : Char}
    (h : headAnswerLetter cs = some c) : isAnswerLetter c = true := by
  cases cs with
  | nil => cases h
  | cons a rest =>
    simp only [headAnswerLetter] at h
    split at h
    · injection h with h2
      subst h2
      assumption
    · cases h

theorem answerTail_letter {cs : List Char} {c : Char}
    (h : answerTail cs = some c) : isAnswerLetter c = true := by
  simp only [answerTail] at h
  split at h <;> exact headAnswerLetter_letter h

theorem tryKeyword_letter {kw cs : List Char} {c : Char}
    (h : tryKeyword kw cs = some c) : isAnswerLetter c = true := by
  simp only [tryKeyword] at h
  split at h
  · exact answerTail_letter h
  · cases h

theorem searchAnswerPattern_letter {cs : List Char} {c : Char}
    (h : searchAnswerPattern cs = some c) : isAnswerLetter c = true := by
  induction cs with
  | nil => cases h
  | cons a rest ih =>
    simp only [searchAnswerPattern] at h
    cases h1 : tryKeyword "answer".data (a :: rest) with
    | some l =>
      rw [h1] at h
      injection h with h2
      subst h2
      exact tryKeyword_letter h1
    | none =>
      rw [h1] at h
      cases h2 : tryKeyword "correct answer".data (a :: rest) with
      | some l =>
        rw [h2] at h
        injection h with h3
        subst h3
        exact tryKeyword_letter h2
      | none =>
        rw [h2] at h
        cases h3 : tryKeyword "ans".data (a :: rest) with
        | some l =>
          rw [h3] at h
          injection h with h4
          subst h4
          exact tryKeyword_letter h3
        | none =>
          rw [h3] at h
          exact ih h

theorem answer_letter_cases {c : Char} (h : isAnswerLetter c = true) :
    String.mk [c.toUpper] = "A" ∨ String.mk [c.toUpper] = "B" ∨
    String.mk [c.toUpper] = "C" ∨ String.mk [c.toUpper] = "D" := by
  have hc : c = 'A' ∨ c = 'B' ∨ c = 'C' ∨ c = 'D' ∨ c = 'a' ∨ c = 'b' ∨ c = 'c'
      ∨ c = 'd' := by
    simp only [isAnswerLetter, isOptionLabelChar, Bool.or_eq_true, beq_iff_eq] at h
    tauto
  rcases hc with rfl | rfl | rfl | rfl | rfl | rfl | rfl | rfl <;> decide

theorem extract_correct_answer_cases (sec : HNode) :
    extract_correct_answer sec = "" ∨ extract_correct_answer sec = "A" ∨
    extract_correct_answer sec = "B" ∨ extract_correct_answer sec = "C" ∨
    extract_correct_answer sec = "D" := by
  unfold extract_correct_answer
  cases findFirst (divWithClass "solution-sec") sec with
  | none => exact Or.inl rfl
  | some sol =>
    dsimp only
    cases hs : searchAnswerPattern (getTextStrip sol).data with
    | some c =>
      have := answer_letter_cases (searchAnswerPattern_letter hs)
      tauto
    | none =>
      by_cases hb : (getTextStrip sol == "A" || getTextStrip sol == "B"
          || getTextStrip sol == "C" || getTextStrip sol == "D") = true
      · simp only [hb, if_pos]
        simp only [Bool.or_eq_true, beq_iff_eq] at hb
        tauto
      · simp only [hb, Bool.false_eq_true, if_neg, if_false]
        cases findFirst (divWithClass "answr") sol with
        | none => simp
        | some ad =>
          cases hl : lastAnswerChar (getTextStrip ad).data with
          | none => simp [hl]
          | some c =>
            have hc0 : isOptionLabelChar c = true :=
              List.find?_some (by simpa [lastAnswerChar] using hl)
            have hc : c = 'A' ∨ c = 'B' ∨ c = 'C' ∨ c = 'D' := by
              simp only [isOptionLabelChar, Bool.or_eq_true, beq_iff_eq] at hc0
              tauto
            rcases hc with rfl | rfl | rfl | rfl <;> simp [hl]

/-- C5 counterexample: a section offering only options A and B whose
solution text reads `"Answer: D"` parses into a `QuizQuestion` whose
`correct_answer` is `"D"`, a label absent from its options mapping —
the parser never cross-checks the extracted answer against the
extracted options. -/
theorem C5_counterexample :
    parse_question_section sectionTwoOptionsAnswerD 1 = Except.ok questionAnswerD ∧
    questionAnswerD.correct_answer ∉ optionLabelStrings questionAnswerD := by
  exact ⟨rfl, by decide⟩

/-- C5 (amended): for every `QuizQuestion` produced by the parser, the
correct-answer label is one of `"A"`–`"D"` and the options mapping is
nonempty, but the label need not be among the option labels actually
present (see the counterexample). -/
theorem C5_correct_answer_in_label_range (sec : HNode) (n : Nat) (q : QuizQuestion)
    (h : parse_question_section sec n = Except.ok q) :
    (q.correct_answer = "A" ∨ q.correct_answer = "B" ∨ q.correct_answer = "C"
      ∨ q.correct_answer = "D") ∧ q.options ≠ [] := by
  unfold parse_question_section at h
  cases hf : findFirst (divWithClass "q-name") sec with
  | none => rw [hf] at h; cases h
  | some qdiv =>
    rw [hf] at h
    by_cases h1 : (extract_options sec).isEmpty
    · simp [h1] at h
    · by_cases h2 : (extract_correct_answer sec == "") = true
      · simp [h1, h2] at h
      · simp only [h1, h2, Bool.false_eq_true, if_neg, if_false, Except.ok.injEq] at h
        subst h
        refine ⟨?_, ?_⟩
        · have := extract_correct_answer_cases sec
          have hne : ¬ (extract_correct_answer sec = "") := by
            simpa using h2
          tauto
        · simpa [List.isEmpty_iff] using h1

/-- Witness for the amended C5 theorem at a well-formed section. -/
theorem C5_correct_answer_in_label_range_witness :
    parse_question_section sectionWellFormed 1 = Except.ok wellFormedQuestion ∧
    ((wellFormedQuestion.correct_answer = "A" ∨ wellFormedQuestion.correct_answer = "B"
        ∨ wellFormedQuestion.correct_answer = "C"
        ∨ wellFormedQuestion.correct_answer = "D") ∧
      wellFormedQuestion.options ≠ []) :=
  ⟨rfl,
    C5_correct_answer_in_label_range sectionWellFormed 1 wellFormedQuestion rfl⟩

theorem optionLabels_drop (count : Nat) (h : count < 4) :
    option_labels.drop count
      = option_labels.getD count 'A' :: option_labels.drop (count + 1) := by
  interval_cases count <;> rfl

theorem extractOptionsLoop_shape (lis : List HNode) (count : Nat) :
    (extractOptionsLoop lis count).map Prod.fst
        = (option_labels.drop count).take (extractOptionsLoop lis count).length ∧
    (extractOptionsLoop lis count).length ≤ 4 - count ∧
    ∀ p ∈ extractOptionsLoop lis count, p.2 ≠ "" := by
  induction lis generalizing count with
  | nil => simp [extractOptionsLoop]
  | cons li rest ih =>
    by_cases hc : 4 ≤ count
    · simp [extractOptionsLoop, hc]
    · simp only [extractOptionsLoop, hc, if_false]
      cases hf : findFirst (divWithClass "containerr-text-opt") li with
      | none =>
        try dsimp only
        exact ih count
      | some od =>
        try dsimp only
        by_cases ht : clean_option_text (getTextStrip od) = ""
        · simp only [ht]
          try dsimp only
          exact ih count
        · have ht2 : (clean_option_text (getTextStrip od) == "") = false := by
            simpa using ht
          simp only [ht2, Bool.false_eq_true, if_false]
          obtain ⟨ihmap, ihlen, ihval⟩ := ih (count + 1)
          refine ⟨?_, ?_, ?_⟩
          · simp only [List.map_cons, List.length_cons]
            rw [optionLabels_drop count (by omega), List.take_succ_cons, ihmap]
          · simp only [List.length_cons]
            omega
          · intro p hp
            rcases List.mem_cons.mp hp with rfl | hp2
            · exact ht
            · exact ihval p hp2

/-- C10: for every question section, the extracted options mapping has
at most four entries, its labels form a contiguous prefix of
`A, B, C, D` assigned in document order of the option elements, and
every stored option text is nonempty (empty-cleaning list items are
skipped without consuming a label; items beyond the fourth parsed
option are ignored). -/
theorem C10_options_shape (sec : HNode) :
    (extract_options sec).map Prod.fst
        = option_labels.take (extract_options sec).length ∧
    (extract_options sec).length ≤ 4 ∧
    ∀ p ∈ extract_options sec, p.2 ≠ "" := by
  unfold extract_options
  cases findFirst (divWithClass "q-option") sec with
  | none => simp
  | some qdiv =>
    dsimp only
    simpa using extractOptionsLoop_shape (findAll (tagIs "li") qdiv) 0

/-- Witness for C10 at the concrete well-formed section. -/
theorem C10_options_shape_witness :
    (extract_options sectionWellFormed).map Prod.fst
        = option_labels.take (extract_options sectionWellFormed).length ∧
    (extract_options sectionWellFormed).length ≤ 4 ∧
    ∀ p ∈ extract_options sectionWellFormed, p.2 ≠ "" :=
  C10_options_shape sectionWellFormed

theorem is_english_text_iff (s : String) :
    is_english_text s = true ↔
      (devanagariCount s + englishCount s = 0 ∨
        10 * devanagariCount s < 3 * (devanagariCount s + englishCount s)) := by
  unfold is_english_text
  by_cases h0 : s = ""
  · subst h0
    simp [devanagariCount, englishCount]
  · have h0b : (s == "") = false := by simpa using h0
    simp only [h0b, Bool.false_eq_true, if_false]
    by_cases h1 : devanagariCount s + englishCount s = 0
    · simp [h1]
    · have h1b : (devanagariCount s + englishCount s == 0) = false := by simpa using h1
      simp [h1b, h1]

theorem keptLoop_cons_error {sec : HNode} {rest : List HNode} {idx found : Nat}
    {e : String} (hp : parse_question_section sec idx = Except.error e) :
    keptLoop (sec :: rest) idx found = keptLoop rest (idx + 1) found := by
  simp only [keptLoop]
  rw [hp]

theorem keptLoop_cons_ok_eng {sec : HNode} {rest : List HNode} {idx found : Nat}
    {q : QuizQuestion} (hp : parse_question_section sec idx = Except.ok q)
    (he : is_english_text q.question_text = true) :
    keptLoop (sec :: rest) idx found
      = { q with question_number := found + 1 }
          :: keptLoop rest (idx + 1) (found + 1) := by
  simp only [keptLoop]
  rw [hp]
  simp [he]

theorem keptLoop_cons_ok_hindi {sec : HNode} {rest : List HNode} {idx found : Nat}
    {q : QuizQuestion} (hp : parse_question_section sec idx = Except.ok q)
    (he : is_english_text q.question_text = false) :
    keptLoop (sec :: rest) idx found = keptLoop rest (idx + 1) found := by
  simp only [keptLoop]
  rw [hp]
  simp [he]

theorem keptLoop_numbers (secs : List HNode) (idx found : Nat) :
    (keptLoop secs idx found).map (fun q => q.question_number)
      = List.range' (found + 1) (keptLoop secs idx found).length 1 := by
  induction secs generalizing idx found with
  | nil => rfl
  | cons sec rest ih =>
    rcases hp : parse_question_section sec idx with e | q
    · rw [keptLoop_cons_error hp]
      exact ih _ _
    · cases he : is_english_text q.question_text with
      | false =>
        rw [keptLoop_cons_ok_hindi hp he]
        exact ih _ _
      | true =>
        rw [keptLoop_cons_ok_eng hp he]
        simp only [List.map_cons, List.length_cons]
        rw [ih (idx + 1) (found + 1), List.range'_succ]

theorem keptLoop_all_english (secs : List HNode) (idx found : Nat) :
    ∀ q ∈ keptLoop secs idx found, is_english_text q.question_text = true := by
  induction secs generalizing idx found with
  | nil => intro q hq; cases hq
  | cons sec rest ih =>
    rcases hp : parse_question_section sec idx with e | q0
    · rw [keptLoop_cons_error hp]
      exact ih _ _
    · cases he : is_english_text q0.question_text with
      | false =>
        rw [keptLoop_cons_ok_hindi hp he]
        exact ih _ _
      | true =>
        rw [keptLoop_cons_ok_eng hp he]
        intro q hq
        rcases List.mem_cons.mp hq with rfl | hq2
        · exact he
        · exact ih _ _ q hq2

theorem keptLoop_complete (secs : List HNode) (idx found : Nat) (sec : HNode)
    (hmem : sec ∈ secs) (i : Nat) (q : QuizQuestion)
    (hp : parse_question_section sec i = Except.ok q)
    (he : is_english_text q.question_text = true) :
    ∃ q2 ∈ keptLoop secs idx found,
      q2.question_text = q.question_text ∧ q2.options = q.options ∧
      q2.correct_answer = q.correct_answer ∧ q2.explanation = q.explanation := by
  induction secs generalizing idx found with
  | nil => cases hmem
  | cons s rest ih =>
    rcases List.mem_cons.mp hmem with heq | hmem2
    · subst heq
      have hidx : parse_question_section sec idx
          = Except.ok { q with question_number := idx } := by
        rw [parse_question_section_reindex sec i idx, hp]
        rfl
      rw [keptLoop_cons_ok_eng hidx he]
      exact ⟨_, List.mem_cons_self _ _, rfl, rfl, rfl, rfl⟩
    · rcases hp2 : parse_question_section s idx with e | q3
      · rw [keptLoop_cons_error hp2]
        exact ih (idx + 1) found hmem2
      · cases he3 : is_english_text q3.question_text with
        | false =>
          rw [keptLoop_cons_ok_hindi hp2 he3]
          exact ih (idx + 1) found hmem2
        | true =>
          rw [keptLoop_cons_ok_eng hp2 he3]
          obtain ⟨q2, hq2, hf⟩ := ih (idx + 1) (found + 1) hmem2
          exact ⟨q2, List.mem_cons_of_mem _ hq2, hf⟩

theorem keptLoop_eq_nil_iff (secs : List HNode) (idx found : Nat) :
    keptLoop secs idx found = [] ↔
      ∀ sec ∈ secs, ∀ q, parse_question_section sec 1 = Except.ok q →
        is_english_text q.question_text = false := by
  induction secs generalizing idx found with
  | nil => simp [keptLoop]
  | cons s rest ih =>
    rcases hp : parse_question_section s idx with e | q0
    · rw [keptLoop_cons_error hp, ih]
      constructor
      · intro h sec hm q hq
        rcases List.mem_cons.mp hm with heq | hm2
        · subst heq
          have hone : parse_question_section sec 1 = Except.error e := by
            rw [parse_question_section_reindex sec idx 1, hp]
            rfl
          rw [hone] at hq
          cases hq
        · exact h sec hm2 q hq
      · intro h sec hm q hq
        exact h sec (List.mem_cons_of_mem _ hm) q hq
    · cases he : is_english_text q0.question_text with
      | true =>
        rw [keptLoop_cons_ok_eng hp he]
        refine iff_of_false (by simp) ?_
        intro hall
        have hone : parse_question_section s 1
            = Except.ok { q0 with question_number := 1 } := by
          rw [parse_question_section_reindex s idx 1, hp]
          rfl
        have hfalse : is_english_text q0.question_text = false :=
          hall s (List.mem_cons_self _ _) { q0 with question_number := 1 } hone
        cases he.symm.trans hfalse
      | false =>
        rw [keptLoop_cons_ok_hindi hp he, ih]
        constructor
        · intro h sec hm q hq
          rcases List.mem_cons.mp hm with heq | hm2
          · subst heq
            have hone : parse_question_section sec 1
                = Except.ok { q0 with question_number := 1 } := by
              rw [parse_question_section_reindex sec idx 1, hp]
              rfl
            rw [hone] at hq
            injection hq with hq2
            subst hq2
            exact he
          · exact h sec hm2 q hq
        · intro h sec hm q hq
          exact h sec (List.mem_cons_of_mem _ hm) q hq

/-- C7: in every successfully parsed quiz, every kept question has
strictly less than 30% Devanagari among its alphabetic characters (so a
question at or above 30% is excluded), every parsed section strictly
below 30% contributes a question with the same content, and the kept
questions are numbered contiguously starting at 1. -/
theorem C7_language_filter (html : HNode) (url now : String) (qd : QuizData)
    (h : parse_quiz html url now = Except.ok qd) :
    (∀ q ∈ qd.questions,
      0 < devanagariCount q.question_text + englishCount q.question_text →
        10 * devanagariCount q.question_text
          < 3 * (devanagariCount q.question_text + englishCount q.question_text)) ∧
    qd.questions.map (fun q => q.question_number)
        = List.range' 1 qd.questions.length 1 ∧
    (∀ sec ∈ sectionsOf html, ∀ i q, parse_question_section sec i = Except.ok q →
        10 * devanagariCount q.question_text
            < 3 * (devanagariCount q.question_text + englishCount q.question_text) →
        ∃ q2 ∈ qd.questions, q2.question_text = q.question_text ∧
          q2.options = q.options ∧ q2.correct_answer = q.correct_answer ∧
          q2.explanation = q.explanation) := by
  have hq : qd.questions = keptLoop (sectionsOf html) 1 0 := by
    unfold parse_quiz at h
    by_cases hs : (sectionsOf html).isEmpty
    · simp [hs] at h
    · by_cases hk : (keptLoop (sectionsOf html) 1 0).isEmpty
      · simp [hs, hk] at h
      · simp only [hs, hk, Bool.false_eq_true, if_false, Except.ok.injEq] at h
        rw [← h]
  refine ⟨?_, ?_, ?_⟩
  · intro q hq2 hpos
    have hkeep := keptLoop_all_english (sectionsOf html) 1 0 q (by rw [← hq]; exact hq2)
    rcases (is_english_text_iff q.question_text).mp hkeep with h2 | h2
    · omega
    · exact h2
  · rw [hq]
    simpa using keptLoop_numbers (sectionsOf html) 1 0
  · intro sec hsec i q hp hratio
    have he : is_english_text q.question_text = true :=
      (is_english_text_iff q.question_text).mpr (Or.inr hratio)
    obtain ⟨q2, hq2, hf⟩ := keptLoop_complete (sectionsOf html) 1 0 sec hsec i q hp he
    exact ⟨q2, by rw [hq]; exact hq2, hf⟩

/-- Witness for C7 at the concrete two-section document. -/
theorem C7_language_filter_witness :
    parse_quiz htmlMalformedPlusGood "u" "d" = Except.ok parsedGoodQuizData ∧
    parsedGoodQuizData.questions.map (fun q => q.question_number)
      = List.range' 1 parsedGoodQuizData.questions.length 1 := by
  have h := C7_language_filter htmlMalformedPlusGood "u" "d" parsedGoodQuizData rfl
  exact ⟨rfl, h.2.1⟩

/-- C8 counterexample: a document whose single section is well formed —
it parses successfully — but entirely Devanagari still makes
`parse_quiz` raise, so "zero sections found or zero sections parse
successfully" does not exhaust the failure cases. -/
theorem C8_counterexample :
    parse_question_section hindiSection 1 = Except.ok hindiQuestion ∧
    sectionsOf htmlOneHindi = [hindiSection] ∧
    parse_quiz htmlOneHindi "u" "d"
      = Except.error "No English questions could be parsed from HTML" :=
  ⟨rfl, rfl, rfl⟩

/-- C8 (amended): `parse_quiz` raises if and only if zero
question-section containers are found or no section both parses
successfully and passes the English-language filter; in particular, a
document with one malformed section and one well-formed English section
yields exactly the one well-formed question. -/
theorem C8_parse_error_iff :
    (∀ (html : HNode) (url now : String),
      (∃ e, parse_quiz html url now = Except.error e) ↔
        (sectionsOf html = [] ∨
          ∀ sec ∈ sectionsOf html, ∀ q, parse_question_section sec 1 = Except.ok q →
            is_english_text q.question_text = false)) ∧
    parse_quiz htmlMalformedPlusGood "u" "d" = Except.ok parsedGoodQuizData := by
  constructor
  · intro html url now
    unfold parse_quiz
    by_cases hs : (sectionsOf html).isEmpty
    · simp only [hs, if_true]
      exact iff_of_true ⟨_, rfl⟩ (Or.inl (by simpa [List.isEmpty_iff] using hs))
    · have hsb : (sectionsOf html).isEmpty = false := by simpa using hs
      simp only [hsb, Bool.false_eq_true, if_false]
      by_cases hk : (keptLoop (sectionsOf html) 1 0).isEmpty
      · simp only [hk, if_true]
        exact iff_of_true ⟨_, rfl⟩
          (Or.inr ((keptLoop_eq_nil_iff _ 1 0).mp
            (by simpa [List.isEmpty_iff] using hk)))
      · have hkb : (keptLoop (sectionsOf html) 1 0).isEmpty = false := by simpa using hk
        simp only [hkb, Bool.false_eq_true, if_false]
        refine iff_of_false ?_ ?_
        · rintro ⟨e, he⟩
          cases he
        · rintro (h | h)
          · exact hs (by simp [h])
          · exact hk (by simp [List.isEmpty_iff, (keptLoop_eq_nil_iff _ 1 0).mpr h])
  · rfl

/-- Witness for C8: the all-Devanagari single-section document falls
under the amended failure condition, so `parse_quiz` raises on it. -/
theorem C8_parse_error_iff_witness :
    ∃ e, parse_quiz htmlOneHindi "u" "d" = Except.error e := by
  refine (C8_parse_error_iff.1 htmlOneHindi "u" "d").mpr (Or.inr ?_)
  intro sec hm q hq
  rw [show sectionsOf htmlOneHindi = [hindiSection] from rfl] at hm
  rcases List.mem_cons.mp hm with heq | hm2
  · subst heq
    rw [show parse_question_section hindiSection 1 = Except.ok hindiQuestion from rfl]
      at hq
    injection hq with hq2
    subst hq2
    decide
  · cases hm2

/-- Witness for the amended C6 theorem at the concrete body text
`"red fort"`. -/
theorem C6_clean_option_label_invariance_witness :
    noLeadingLabel ("red fort".data.dropWhile pyWS) = true ∧
    clean_option_text ("A. " ++ "red fort") = clean_option_text ("A " ++ "red fort") ∧
    clean_option_text ("A) " ++ "red fort") = clean_option_text ("A " ++ "red fort") := by
  refine ⟨by decide, ?_, ?_⟩
  · exact (C6_clean_option_label_invariance "red fort" (by decide)).1
  · exact (C6_clean_option_label_invariance "red fort" (by decide)).2

end NewsScraper
